import Mathlib

/-!
Verification development for the `jaxnets.models.feedforward` module:
a `Linear` layer with configurable initialization and trainability, and
three feedforward models built on it (`MLP`, `SCM`, `GatedNet`).

Tensors are embedded as lists of rationals (1-D) and lists of rows (2-D).
The host framework's pieces (default parameter construction, key splitting,
the differentiation semantics of stop_gradient) are out of `src/` and are
modelled from the spec as pure functions; everything else is translated
directly from `src/jaxnets/models/feedforward.py`.
-/

namespace Jaxnets

/-- A 1-D tensor: a vector of rationals. -/
abbrev Tensor := List ℚ

/-- A 2-D tensor: a list of rows. -/
abbrev Mat := List (List ℚ)

/-- Modelled from the spec: the randomness source is an opaque splittable
seed value; we embed it as a natural number. -/
abbrev Key := Nat

/-- Modelled from the spec: splitting the randomness source is deterministic
(same seed gives the same two child seeds).  Embeds `jax.random.split`. -/
def jrandom_split (k : Key) : Key × Key :=
  (2 * k, 2 * k + 1)

/-- An initializer function: `init_fn(existing_weight, key) -> new_weight`.
The three concrete initializers live in `jaxnets.models.initializers`,
outside the sources; models and claims are parametric in this function. -/
abbrev InitFn := Mat → Key → Mat

/-- Dot product of two vectors, as `jnp` computes `w · x` row-wise. -/
def dot (a b : List ℚ) : ℚ :=
  (List.zipWith (· * ·) a b).sum

/-- Matrix–vector product `W @ x`. -/
def matVec (w : Mat) (x : Tensor) : Tensor :=
  w.map (fun r => dot r x)

/-- Elementwise vector addition. -/
def addVec (a b : Tensor) : Tensor :=
  List.zipWith (· + ·) a b

/-- Arithmetic mean of a vector, embedding `jnp.mean` on a 1-D array. -/
def jmean (l : List ℚ) : ℚ :=
  l.sum / (l.length : ℚ)

/-- A parameter tensor is either a raw (trainable) tensor or one wrapped in
the `StopGradient` marker from the source (`StopGradient(eqx.Module)`). -/
inductive Param (α : Type) where
  | raw (v : α)
  | stopGradient (v : α)

/-- Forward read of a parameter: `StopGradient.__jax_array__` returns the
wrapped array value unchanged for forward computation. -/
def Param.read {α : Type} : Param α → α
  | .raw v => v
  | .stopGradient v => v

/-- Whether the parameter is wrapped in `StopGradient`. -/
def Param.isFrozen {α : Type} : Param α → Bool
  | .raw _ => false
  | .stopGradient _ => true

/-- Unwrapping the `StopGradient` marker, keeping the value. -/
def Param.unfreeze {α : Type} : Param α → Param α
  | .raw v => .raw v
  | .stopGradient v => .raw v

/-- Modelled from the spec: the host framework's standard construction of the
default weight matrix of shape `[out_features, in_features]`, a deterministic
pure function of the key (step 1 of the `Linear` constructor). -/
def hostDefaultWeight (key : Key) (outF inF : Nat) : Mat :=
  (List.range outF).map (fun i =>
    (List.range inF).map (fun j => ((key + 31 * i + j : Nat) : ℚ)))

/-- Modelled from the spec: the host framework's standard construction of the
default bias vector of shape `[out_features]`, a deterministic pure function
of the key. -/
def hostDefaultBias (key : Key) (outF : Nat) : Tensor :=
  (List.range outF).map (fun i => ((key + 7 * i : Nat) : ℚ))

/-- The keyword arguments forwarded to `Linear.__init__` (defaults in the
source: `use_bias=True`, `weight_trainable=True`, `bias_value=0.0`,
`bias_trainable=False`). -/
structure LinearKwargs where
  use_bias : Bool
  weight_trainable : Bool
  bias_value : ℚ
  bias_trainable : Bool

/-- The `Linear` layer: feature counts (stored by the host base class) plus
weight and optional bias, each independently raw or frozen. -/
structure Linear where
  inFeatures : Nat
  outFeatures : Nat
  weight : Param Mat
  bias : Option (Param Tensor)

/-- Embeds `Linear.__init__`: the host base constructor allocates default
weight and bias from the key; the weight is reinitialized by `init_fn`
reusing the same key and frozen when not trainable; if `use_bias`, the bias
is overwritten with `bias_value * jnp.ones_like(bias)` and frozen when not
trainable. -/
def Linear.init (inF outF : Nat) (kw : LinearKwargs) (key : Key)
    (f : InitFn) : Linear :=
  let w0 := hostDefaultWeight key outF inF
  let b0 : Option Tensor := if kw.use_bias then some (hostDefaultBias key outF) else none
  let w1 := f w0 key
  let weight := if kw.weight_trainable then Param.raw w1 else Param.stopGradient w1
  let bias := b0.map (fun b =>
    let bConst := (b.map (fun _ => (1 : ℚ))).map (fun v => kw.bias_value * v)
    if kw.bias_trainable then Param.raw bConst else Param.stopGradient bConst)
  Linear.mk inF outF weight bias

/-- Forward application of the layer: `weight @ x + bias` (or `weight @ x`
when there is no bias), reading through any `StopGradient` wrapper. -/
def Linear.apply (l : Linear) (x : Tensor) : Tensor :=
  let y := matVec l.weight.read x
  match l.bias with
  | none => y
  | some b => addVec y b.read

/-- The layer with all `StopGradient` wrappers removed, parameter values kept. -/
def Linear.unfreeze (l : Linear) : Linear :=
  Linear.mk l.inFeatures l.outFeatures l.weight.unfreeze (l.bias.map Param.unfreeze)

/-- Whether the bias exists and is frozen. -/
def Linear.biasFrozen (l : Linear) : Bool :=
  match l.bias with
  | none => false
  | some b => b.isFrozen

/-- A zero matrix of the same shape as the given one. -/
def zeroLikeMat (w : Mat) : Mat :=
  w.map (fun r => r.map (fun _ => (0 : ℚ)))

/-- A zero vector of the same shape as the given one. -/
def zeroLikeVec (v : Tensor) : Tensor :=
  v.map (fun _ => (0 : ℚ))

/-- Modelled from the spec: the directional derivative (tangent) of
`Linear.apply` at the layer's parameters in direction `(dW, db)`.  The
gradient-computation pass treats a `StopGradient`-wrapped value as a
constant, so a frozen parameter's direction is zeroed; for the affine map
the tangent is `dW @ x + db` over the effective directions. -/
def Linear.jvp (l : Linear) (x : Tensor) (dW : Mat) (db : Tensor) : Tensor :=
  let dWe := if l.weight.isFrozen then zeroLikeMat dW else dW
  let t := matVec dWe x
  match l.bias with
  | none => t
  | some b => addVec t (if b.isFrozen then zeroLikeVec db else db)

/-- Embeds the Python idiom `v or in_features` on `int | None` arguments:
`None` and `0` are falsy and are replaced by the default. -/
def orDefault (v : Option Nat) (d : Nat) : Nat :=
  match v with
  | none => d
  | some n => if n = 0 then d else n

/-- The multi-layer perceptron: two `Linear` layers with an activation in
between, output rescaled by the hidden width. -/
structure MLP where
  fc1 : Linear
  act : Tensor → Tensor
  fc2 : Linear
  num_hiddens : Nat

/-- Embeds `MLP.__init__`: `out_features` has Python default `1` and
`hidden_features` default `None`; each falls back to `in_features` via `or`;
the key is split into two child keys for the two layers. -/
def MLP.construct (inF : Nat) (hidden_features out_features : Option Nat)
    (act : Tensor → Tensor) (kw : LinearKwargs) (key : Key) (f : InitFn) : MLP :=
  let outF := orDefault out_features inF
  let hiddenF := orDefault hidden_features inF
  let ks := jrandom_split key
  MLP.mk (Linear.init inF hiddenF kw ks.1 f) act
    (Linear.init hiddenF outF kw ks.2 f) hiddenF

/-- Embeds `MLP.forward_pass`: `preact = fc1(x)`, then
`(fc2(act(preact)) / num_hiddens, preact)`.  The `key` argument is unused. -/
def MLP.forward_pass (m : MLP) (x : Tensor) (_key : Key) : Tensor × Tensor :=
  let preact := m.fc1.apply x
  let x1 := m.act preact
  let x2 := (m.fc2.apply x1).map (fun v => v / (m.num_hiddens : ℚ))
  (x2, preact)

/-- Embeds `MLP.__call__`: the first component of `forward_pass`. -/
def MLP.call (m : MLP) (x : Tensor) (key : Key) : Tensor :=
  (m.forward_pass x key).1

/-- The soft-committee machine: one `Linear` layer, an activation, and an
unweighted mean to a scalar. -/
structure SCM where
  fc1 : Linear
  act : Tensor → Tensor

/-- Embeds `SCM.__init__`: single layer `in_features -> hidden_features`
(hidden defaulting to `in_features` via `or`), key passed through unsplit. -/
def SCM.construct (inF : Nat) (hidden_features : Option Nat)
    (act : Tensor → Tensor) (kw : LinearKwargs) (key : Key) (f : InitFn) : SCM :=
  let hiddenF := orDefault hidden_features inF
  SCM.mk (Linear.init inF hiddenF kw key f) act

/-- Embeds `SCM.forward_pass`: `preact = fc1(x)`, then
`(jnp.mean(act(preact)), preact)`.  The `key` argument is unused. -/
def SCM.forward_pass (s : SCM) (x : Tensor) (_key : Key) : ℚ × Tensor :=
  let preact := s.fc1.apply x
  let x1 := s.act preact
  (jmean x1, preact)

/-- Embeds `SCM.__call__`: the first component of `forward_pass`. -/
def SCM.call (s : SCM) (x : Tensor) (key : Key) : ℚ :=
  (s.forward_pass x key).1

/-- A `jnp` value as produced by a gate function: a scalar (such as the
default gate `lambda x: 1.`) or a 1-D array. -/
inductive JArr where
  | scalar (v : ℚ)
  | vec (l : List ℚ)
deriving DecidableEq

/-- Broadcasting multiplication of `jnp`: scalars broadcast against vectors,
vectors of equal length multiply elementwise, a length-1 vector broadcasts,
and any other length mismatch is a shape error. -/
def JArr.mul : JArr → JArr → Option JArr
  | .scalar a, .scalar b => some (.scalar (a * b))
  | .scalar a, .vec b => some (.vec (b.map (fun v => a * v)))
  | .vec a, .scalar b => some (.vec (a.map (fun v => v * b)))
  | .vec a, .vec b =>
    if a.length = b.length then some (.vec (List.zipWith (· * ·) a b))
    else if a.length = 1 then some (.vec (b.map (fun v => a.headI * v)))
    else if b.length = 1 then some (.vec (a.map (fun v => v * b.headI)))
    else none

/-- Embeds `jnp.mean` on a scalar-or-vector value. -/
def JArr.mean : JArr → ℚ
  | .scalar v => v
  | .vec l => jmean l

/-- The gated network: one `Linear` layer and a gating function computing a
multiplier from the input. -/
structure GatedNet where
  fc1 : Linear
  gate : Tensor → JArr

/-- Embeds `GatedNet.__init__`: single layer `in_features -> hidden_features`
(hidden defaulting to `in_features` via `or`), key passed through unsplit. -/
def GatedNet.construct (inF : Nat) (hidden_features : Option Nat)
    (gate : Tensor → JArr) (kw : LinearKwargs) (key : Key) (f : InitFn) : GatedNet :=
  let hiddenF := orDefault hidden_features inF
  GatedNet.mk (Linear.init inF hiddenF kw key f) gate

/-- Embeds `GatedNet.forward_pass`: `preacts = fc1(x)`, `gates = gate(x)`,
`postacts = gates * preacts` under broadcasting (a shape error is `none`),
and the result is `(jnp.mean(postacts), preacts, gates, postacts)`.  The
`key` argument is unused. -/
def GatedNet.forward_pass (g : GatedNet) (x : Tensor) (_key : Key) :
    Option (ℚ × Tensor × JArr × JArr) :=
  let preacts := g.fc1.apply x
  let gates := g.gate x
  match gates.mul (JArr.vec preacts) with
  | none => none
  | some postacts => some (postacts.mean, preacts, gates, postacts)

/-- Embeds `GatedNet.__call__`: the first component of `forward_pass`. -/
def GatedNet.call (g : GatedNet) (x : Tensor) (key : Key) : Option ℚ :=
  (g.forward_pass x key).map (fun r => r.1)

/-- The identity initializer, used to instantiate witnesses. -/
def idInit : InitFn := fun w _ => w

/-- Concrete kwargs with a bias: `use_bias=True`, `weight_trainable=True`,
`bias_value=5`, `bias_trainable=False`. -/
def kwBias5 : LinearKwargs := LinearKwargs.mk true true 5 false

/-- Concrete kwargs freezing both parameters, with `bias_value=2`. -/
def kwFrozen : LinearKwargs := LinearKwargs.mk true false 2 false

/-- Concrete kwargs with the source defaults. -/
def kwDefault : LinearKwargs := LinearKwargs.mk true true 0 false

/-- A concrete 2×2 layer with identity weight and no bias, for witnesses. -/
def linId2 : Linear :=
  Linear.mk 2 2 (Param.raw [[1, 0], [0, 1]]) none

/-- A concrete gated net over `linId2` whose gate returns the vector `[2, 3]`. -/
def gateNet2 : GatedNet :=
  GatedNet.mk linId2 (fun _ => JArr.vec [2, 3])

/-- Reading a parameter is unchanged by removing the `StopGradient` wrapper. -/
theorem Param.read_unfreeze {α : Type} (p : Param α) : p.unfreeze.read = p.read := by
  cases p <;> rfl

/-- Resolution of an optional feature count is positive when the default is. -/
theorem orDefault_pos (v : Option Nat) (d : Nat) (h : 0 < d) : 0 < orDefault v d := by
  cases v with
  | none => exact h
  | some n =>
    by_cases hn : n = 0 <;> simp [orDefault, hn] <;> omega

/-- C1: for every input `x`, `MLP.forward_pass(x)` returns the pair
`(y, preact)` with `preact = fc1.apply(x)` and
`y = fc2.apply(act(preact)) / num_hiddens`, and `MLP.__call__(x)` returns
exactly `y`, the first component of that pair. -/
theorem mlp_forward_contract (m : MLP) (x : Tensor) (k : Key) :
    m.forward_pass x k =
      ((m.fc2.apply (m.act (m.fc1.apply x))).map (fun v => v / (m.num_hiddens : ℚ)),
        m.fc1.apply x) ∧
    m.call x k = (m.forward_pass x k).1 := by
  exact ⟨rfl, rfl⟩

/-- C2: for every input `x`, `SCM.forward_pass(x)` returns the pair
`(y, preact)` with `preact = fc1.apply(x)` and `y` the scalar arithmetic
mean of `act(preact)`, and `SCM.__call__(x)` returns only `y`. -/
theorem scm_forward_contract (s : SCM) (x : Tensor) (k : Key) :
    s.forward_pass x k = (jmean (s.act (s.fc1.apply x)), s.fc1.apply x) ∧
    s.call x k = (s.forward_pass x k).1 := by
  exact ⟨rfl, rfl⟩

/-- C9: the result of `forward_pass` (and of the shorthand call) on `MLP`,
`SCM` and `GatedNet` does not depend on the key argument passed at call
time: any two keys give identical outputs. -/
theorem forward_key_independent (m : MLP) (s : SCM) (g : GatedNet)
    (x : Tensor) (k1 k2 : Key) :
    m.forward_pass x k1 = m.forward_pass x k2 ∧
    m.call x k1 = m.call x k2 ∧
    s.forward_pass x k1 = s.forward_pass x k2 ∧
    s.call x k1 = s.call x k2 ∧
    g.forward_pass x k1 = g.forward_pass x k2 ∧
    g.call x k1 = g.call x k2 := by
  exact ⟨rfl, rfl, rfl, rfl, rfl, rfl⟩

/-- C4: a `GatedNet` whose gate is the constant function returning `1.`
produces output (first component of `forward_pass`, value of the call)
numerically identical to an `SCM` with identity activation built on the
identical `fc1` parameters. -/
theorem gated_const_one_eq_scm (fc1 : Linear) (x : Tensor) (k : Key) :
    ((GatedNet.mk fc1 (fun _ => JArr.scalar 1)).forward_pass x k).map (fun r => r.1) =
      some (((SCM.mk fc1 (fun t => t)).forward_pass x k).1) ∧
    (GatedNet.mk fc1 (fun _ => JArr.scalar 1)).call x k =
      some ((SCM.mk fc1 (fun t => t)).call x k) := by
  have h : ((GatedNet.mk fc1 (fun _ => JArr.scalar 1)).forward_pass x k).map (fun r => r.1) =
      some (((SCM.mk fc1 (fun t => t)).forward_pass x k).1) := by
    simp [GatedNet.forward_pass, SCM.forward_pass, JArr.mul, JArr.mean, jmean]
  exact ⟨h, h⟩

/-- C3: when the gate returns a vector of the same shape as the
pre-activations (the constraint the forward contract places on the gate),
`GatedNet.forward_pass(x)` returns `(y, preacts, gates, postacts)` with
`preacts = fc1.apply(x)`, `gates = gate(x)`, `postacts` the elementwise
product of the two, and `y = mean(postacts)`; the call returns only `y`. -/
theorem gated_forward_contract (g : GatedNet) (x : Tensor) (k : Key)
    (gl : List ℚ) (hg : g.gate x = JArr.vec gl)
    (hlen : gl.length = (g.fc1.apply x).length) :
    g.forward_pass x k = some
      (jmean (List.zipWith (· * ·) gl (g.fc1.apply x)), g.fc1.apply x,
        JArr.vec gl, JArr.vec (List.zipWith (· * ·) gl (g.fc1.apply x))) ∧
    g.call x k = some (jmean (List.zipWith (· * ·) gl (g.fc1.apply x))) := by
  have h1 : g.forward_pass x k = some
      (jmean (List.zipWith (· * ·) gl (g.fc1.apply x)), g.fc1.apply x,
        JArr.vec gl, JArr.vec (List.zipWith (· * ·) gl (g.fc1.apply x))) := by
    simp [GatedNet.forward_pass, hg, JArr.mul, hlen, JArr.mean]
  exact ⟨h1, by simp [GatedNet.call, h1]⟩

/-- Witness for C3 at a concrete gated net and input. -/
theorem gated_forward_contract_witness :
    gateNet2.forward_pass [1, 2] 0 =
      some (4, [1, 2], JArr.vec [2, 3], JArr.vec [2, 6]) ∧
    gateNet2.call [1, 2] 0 = some 4 := by
  have h := gated_forward_contract gateNet2 [1, 2] 0 [2, 3] rfl (by decide)
  refine ⟨?_, ?_⟩
  · rw [h.1]
    norm_num [gateNet2, linId2, Linear.apply, Param.read, matVec, dot, jmean]
  · rw [h.2]
    norm_num [gateNet2, linId2, Linear.apply, Param.read, matVec, dot, jmean]

/-- C5: constructing `Linear` with `use_bias=True` yields, for any
`bias_value`, key and weight initializer, a bias equal to the constant
vector of length `out_features` filled with `bias_value`, wrapped in
`StopGradient` exactly when `bias_trainable` is false. -/
theorem linear_bias_constant (inF outF : Nat) (kw : LinearKwargs) (key : Key)
    (f : InitFn) (h : kw.use_bias = true) :
    (Linear.init inF outF kw key f).bias =
      some (if kw.bias_trainable then Param.raw (List.replicate outF kw.bias_value)
            else Param.stopGradient (List.replicate outF kw.bias_value)) := by
  simp [Linear.init, h, hostDefaultBias, List.map_map, Function.comp,
    mul_one, List.map_const', List.length_range]

/-- Witness for C5 at a concrete construction with `bias_value = 5`. -/
theorem linear_bias_constant_witness :
    (Linear.init 2 3 kwBias5 1 idInit).bias =
      some (Param.stopGradient (List.replicate 3 (5 : ℚ))) := by
  have h := linear_bias_constant 2 3 kwBias5 1 idInit rfl
  simpa [kwBias5] using h

/-- C6: with `hidden_features` unspecified (`None`), the hidden width of an
`MLP` defaults to `in_features`; an explicit `None` for `out_features`
defaults it to `in_features`, while leaving `out_features` unspecified uses
its signature default of `1`. -/
theorem mlp_default_features (inF : Nat) (act : Tensor → Tensor)
    (kw : LinearKwargs) (key : Key) (f : InitFn) :
    (MLP.construct inF none (some 1) act kw key f).num_hiddens = inF ∧
    (MLP.construct inF none (some 1) act kw key f).fc1.outFeatures = inF ∧
    (MLP.construct inF none (some 1) act kw key f).fc2.inFeatures = inF ∧
    (MLP.construct inF none (some 1) act kw key f).fc2.outFeatures = 1 ∧
    (MLP.construct inF none none act kw key f).fc2.outFeatures = inF ∧
    (MLP.construct inF none none act kw key f).num_hiddens = inF := by
  exact ⟨rfl, rfl, rfl, rfl, rfl, rfl⟩

/-- C7: two constructions of `Linear` with identical arguments and equal
randomness-source values produce identical weight and bias tensors. -/
theorem linear_init_deterministic (inF outF : Nat) (kw : LinearKwargs)
    (k1 k2 : Key) (f : InitFn) (h : k1 = k2) :
    (Linear.init inF outF kw k1 f).weight = (Linear.init inF outF kw k2 f).weight ∧
    (Linear.init inF outF kw k1 f).bias = (Linear.init inF outF kw k2 f).bias := by
  subst h
  exact ⟨rfl, rfl⟩

/-- Witness for C7 at a concrete construction. -/
theorem linear_init_deterministic_witness :
    (Linear.init 2 3 kwDefault 7 idInit).weight = (Linear.init 2 3 kwDefault 7 idInit).weight ∧
    (Linear.init 2 3 kwDefault 7 idInit).bias = (Linear.init 2 3 kwDefault 7 idInit).bias :=
  linear_init_deterministic 2 3 kwDefault 7 7 idInit rfl

/-- C8: removing `StopGradient` wrappers leaves the forward pass unchanged
(forward reads return the wrapped value), and a frozen weight or bias
contributes zero to the directional derivative of the layer: perturbing it
is the same as perturbing it by zero. -/
theorem linear_freeze_semantics (l : Linear) (x : Tensor) (dW : Mat) (db : Tensor) :
    l.unfreeze.apply x = l.apply x ∧
    (l.weight.isFrozen = true → l.jvp x dW db = l.jvp x (zeroLikeMat dW) db) ∧
    (l.biasFrozen = true → l.jvp x dW db = l.jvp x dW (zeroLikeVec db)) := by
  refine ⟨?_, ?_, ?_⟩
  · cases hb : l.bias with
    | none => simp [Linear.apply, Linear.unfreeze, hb, Param.read_unfreeze]
    | some b => simp [Linear.apply, Linear.unfreeze, hb, Param.read_unfreeze]
  · intro hw
    have hz : zeroLikeMat (zeroLikeMat dW) = zeroLikeMat dW := by
      simp [zeroLikeMat, List.map_map]
    simp [Linear.jvp, hw, hz]
  · intro hb
    cases hob : l.bias with
    | none => simp [Linear.biasFrozen, hob] at hb
    | some b =>
      have hbf : b.isFrozen = true := by simpa [Linear.biasFrozen, hob] using hb
      have hz : zeroLikeVec (zeroLikeVec db) = zeroLikeVec db := by
        simp [zeroLikeVec, List.map_map]
      simp [Linear.jvp, hob, hbf, hz]

/-- Witness for C8 at a concrete fully frozen layer. -/
theorem linear_freeze_semantics_witness :
    (Linear.init 1 1 kwFrozen 0 idInit).unfreeze.apply [1] =
      (Linear.init 1 1 kwFrozen 0 idInit).apply [1] ∧
    (Linear.init 1 1 kwFrozen 0 idInit).jvp [1] [[5]] [7] =
      (Linear.init 1 1 kwFrozen 0 idInit).jvp [1] (zeroLikeMat [[5]]) [7] ∧
    (Linear.init 1 1 kwFrozen 0 idInit).jvp [1] [[5]] [7] =
      (Linear.init 1 1 kwFrozen 0 idInit).jvp [1] [[5]] (zeroLikeVec [7]) := by
  have h := linear_freeze_semantics (Linear.init 1 1 kwFrozen 0 idInit) [1] [[5]] [7]
  exact ⟨h.1, h.2.1 (by decide), h.2.2 (by decide)⟩

/-- C10: a `hidden_features` (or MLP `out_features`) of `0` behaves exactly
like `None` — the zero is replaced by `in_features` — and with positive
`in_features` every layer created through these constructors has positive
feature counts. -/
theorem zero_features_resolution (inF : Nat) (h : 0 < inF)
    (hidden out : Option Nat) (act : Tensor → Tensor) (gate : Tensor → JArr)
    (kw : LinearKwargs) (key : Key) (f : InitFn) :
    MLP.construct inF (some 0) out act kw key f = MLP.construct inF none out act kw key f ∧
    MLP.construct inF hidden (some 0) act kw key f = MLP.construct inF hidden none act kw key f ∧
    SCM.construct inF (some 0) act kw key f = SCM.construct inF none act kw key f ∧
    GatedNet.construct inF (some 0) gate kw key f = GatedNet.construct inF none gate kw key f ∧
    0 < (MLP.construct inF hidden out act kw key f).num_hiddens ∧
    0 < (MLP.construct inF hidden out act kw key f).fc1.outFeatures ∧
    0 < (MLP.construct inF hidden out act kw key f).fc2.outFeatures ∧
    0 < (SCM.construct inF hidden act kw key f).fc1.outFeatures ∧
    0 < (GatedNet.construct inF hidden gate kw key f).fc1.outFeatures := by
  exact ⟨rfl, rfl, rfl, rfl, orDefault_pos _ _ h, orDefault_pos _ _ h,
    orDefault_pos _ _ h, orDefault_pos _ _ h, orDefault_pos _ _ h⟩

/-- Witness for C10 at a concrete construction with `in_features = 2`. -/
theorem zero_features_resolution_witness :
    MLP.construct 2 (some 0) none (fun t => t) kwDefault 3 idInit =
      MLP.construct 2 none none (fun t => t) kwDefault 3 idInit ∧
    0 < (SCM.construct 2 (some 0) (fun t => t) kwDefault 3 idInit).fc1.outFeatures := by
  have h := zero_features_resolution 2 (by decide) (some 0) none (fun t => t)
      (fun _ => JArr.scalar 1) kwDefault 3 idInit
  exact ⟨h.1, h.2.2.2.2.2.2.2.1⟩

end Jaxnets
